import Mathlib

/-
Verification of the zkRTOS kernel core: a shallow embedding of the queue,
semaphore, mutex, scheduler, tick and heap-allocator routines, with theorems
settling the specified properties.  Machine integers are modelled as Nat with
explicit reduction modulo 2^32 where the C code relies on uint32 wrap-around.
Pool-level handle lookup, the critical-section nesting counter and the
hardware context-switch shim are abstracted away; the control flow and
arithmetic of each embedded function follow the C sources statement by
statement.
-/

namespace ZkRTOS

/-! Basic constants from zk_def.h / zk_config-derived values. -/

def U32_MOD : Nat := 4294967296

def ZK_UINT32_MAX : Nat := U32_MOD - 1

def ZK_TIME_MAX : Nat := ZK_UINT32_MAX

/-- ZK_TSK_DLY_MAX = ZK_TIME_MAX / 2 = UINT32_MAX / 2 = 2147483647. -/
def ZK_TSK_DLY_MAX : Nat := ZK_TIME_MAX / 2

def ZK_TIMEOUT_INFINITE : Nat := 4294967295

def ZK_TIMEOUT_NONE : Nat := 0

def ZK_BYTE_ALIGNMENT : Nat := 8

def ZK_BYTE_ALIGNMENT_MASK : Nat := ZK_BYTE_ALIGNMENT - 1

def SEM_COUNT_MAX : Nat := 0xFFFE

def ZK_PRIORITY_NUM : Nat := 32

def ZK_MIN_PRIORITY : Nat := ZK_PRIORITY_NUM - 1

/-- The error-code enumeration of zk_def.h. -/
inductive zk_error_code_t where
  | ZK_SUCCESS
  | ZK_ERR_FAILED
  | ZK_ERR_STATE
  | ZK_ERR_NOT_SUPPORTED
  | ZK_ERR_INVALID_PARAM
  | ZK_ERR_INVALID_HANDLE
  | ZK_ERR_OUT_OF_RANGE
  | ZK_ERR_NOT_ENOUGH_MEMORY
  | ZK_ERR_RESOURCE_UNAVAILABLE
  | ZK_ERR_TIMEOUT
  | ZK_ERR_TASK_INVALID
  | ZK_ERR_TASK_NOT_FOUND
  | ZK_ERR_TASK_PRIORITY_CONFLICT
  | ZK_ERR_SYNC_INVALID
  | ZK_ERR_SYNC_NOT_OWNER
  | ZK_ERR_SYNC_DEADLOCK
  | ZK_ERR_QUEUE_SIZE_MISMATCH
  | ZK_ERR_MEMORY_CORRUPTION
  | ZK_ERR_IN_INTERRUPT
  deriving DecidableEq, Repr

/-- Blocking discipline of task_ready_to_block (zk_def.h block_type_t). -/
inductive block_type_t where
  | BLOCK_TYPE_ENDLESS
  | BLOCK_TYPE_TIMEOUT
  deriving DecidableEq, Repr

/-- Waiter-list insertion ordering (zk_def.h block_sort_type_t). -/
inductive block_sort_type_t where
  | BLOCK_SORT_FIFO
  | BLOCK_SORT_PRIORITY
  deriving DecidableEq, Repr

/-- zk_time_is_reached(now, target) from zk_def.h: the wrap-safe comparison
((long)(now) - (long)(target)) >= 0 on 32-bit values, i.e. the 32-bit
difference (now - target) mod 2^32 read as a signed number is nonnegative. -/
def zk_time_is_reached (now target : Nat) : Bool :=
  decide (((now + (U32_MOD - target % U32_MOD)) % U32_MOD) < 2147483648)

/-! Event waiter lists (zk_scheduler.c add_task_to_endless_block_list).
A waiter is a task id together with its current priority field. -/

structure WaitTask where
  id : Nat
  priority : Nat
  deriving DecidableEq, Repr

/-- The BLOCK_SORT_PRIORITY walk of add_task_to_endless_block_list: iterate over
the sleep list and stop at the first waiter whose priority field is
numerically smaller than the priority of the task being inserted; insert the
new task before that waiter, or at the tail if the walk reaches the head
sentinel again. -/
def add_task_to_block_list_prio (sleep_list : List WaitTask) (tcb : WaitTask) :
    List WaitTask :=
  match sleep_list with
  | [] => [tcb]
  | w :: rest =>
    if w.priority < tcb.priority then tcb :: w :: rest
    else w :: add_task_to_block_list_prio rest tcb

/-- add_task_to_endless_block_list: BLOCK_SORT_FIFO inserts right after the
head sentinel (the front of the list); BLOCK_SORT_PRIORITY does the sorted walk. -/
def add_task_to_endless_block_list (sleep_list : List WaitTask) (tcb : WaitTask)
    (sort_type : block_sort_type_t) : List WaitTask :=
  match sort_type with
  | .BLOCK_SORT_FIFO => tcb :: sleep_list
  | .BLOCK_SORT_PRIORITY => add_task_to_block_list_prio sleep_list tcb

/-- Every wakeup site (sem_release, mutex_wakeup, queue_wakeup) reads
ZK_LIST_GET_FIRST_ENTRY of the sleep list: the node right after the head
sentinel, i.e. the front of the embedded list. -/
def wait_list_wakeup_choice (sleep_list : List WaitTask) : Option WaitTask :=
  sleep_list.head?

/-! The tick-side view of one blocked task (zk_scheduler.c).  A task blocked
with BLOCK_TYPE_TIMEOUT is on the global block_timeout_list; one blocked with
BLOCK_TYPE_ENDLESS is on the event waiter list only.  check_task_block_wakeup
scans only the block_timeout_list and, for entries whose wake_up_time has been
reached, sets event_timeout_wakeup = EVENT_WAIT_TIMEOUT and moves them to
ready (removing them from both lists). -/

structure BlockedTaskState where
  time : Nat
  wake_up_time : Nat
  event_timeout_wakeup : Bool
  on_timeout_list : Bool
  deriving DecidableEq, Repr

/-- One tick as seen by the blocked task: scheduler_increment_tick reads
current_time = get_current_time(), calls increment_time() (uint32 increment),
then check_task_wakeup(current_time) with the pre-increment value; the scan
wakes the task iff it is on the block_timeout_list and its wake_up_time has
been reached, setting its event_timeout_wakeup flag. -/
def scheduler_tick_scan (s : BlockedTaskState) : BlockedTaskState :=
  if s.on_timeout_list && zk_time_is_reached s.time s.wake_up_time then
    { s with time := (s.time + 1) % U32_MOD,
             event_timeout_wakeup := true,
             on_timeout_list := false }
  else
    { s with time := (s.time + 1) % U32_MOD }

/-- Iterate k tick interrupts. -/
def run_ticks (s : BlockedTaskState) : Nat → BlockedTaskState
  | 0 => s
  | k + 1 => scheduler_tick_scan (run_ticks s k)

/-- The flag check every blocking IPC primitive performs after regaining
control (e.g. zk_sem.c lines 230-233): EVENT_WAIT_TIMEOUT yields the timeout
error, otherwise the pending return value ZK_SUCCESS is kept. -/
def event_wait_result (s : BlockedTaskState) : zk_error_code_t :=
  if s.event_timeout_wakeup then .ZK_ERR_TIMEOUT else .ZK_SUCCESS

/-! Semaphore (zk_sem.c).  The handle-to-pool lookup is abstracted: the
embedding works on the count of the addressed, created semaphore. -/

/-- Outcome of sem_get_internal up to its suspension point: either an
immediate return (with the updated count), or the calling task blocks with
the recorded wake_up_time and an indication whether it was also placed on the
block_timeout_list. -/
inductive SemGetOutcome where
  | ret (code : zk_error_code_t) (count : Nat)
  | blocked (wake_up_time : Nat) (on_timeout_list : Bool)
  deriving DecidableEq, Repr

/-- sem_get_internal: under the critical section, fail with ZK_ERR_STATE if
the scheduler is suspended; if count > 0 decrement and succeed; if timeout is
zero fail with the would-block error ZK_ERR_FAILED; otherwise clear the
event_timeout_wakeup flag, set wake_up_time = now + timeout (uint32 wrap),
and block sorted by priority, on the timeout list iff BLOCK_TYPE_TIMEOUT. -/
def sem_get_internal (count : Nat) (block_type : block_type_t)
    (timeout now : Nat) (suspended : Bool) : SemGetOutcome :=
  if suspended then .ret .ZK_ERR_STATE count
  else if count > 0 then .ret .ZK_SUCCESS (count - 1)
  else if timeout = 0 then .ret .ZK_ERR_FAILED count
  else .blocked ((now + timeout) % U32_MOD) (block_type == .BLOCK_TYPE_TIMEOUT)

/-- sem_get: the infinite-wait variant calls sem_get_internal with
BLOCK_TYPE_ENDLESS and the (nonzero) constant 0xFF. -/
def sem_get (count now : Nat) (suspended : Bool) : SemGetOutcome :=
  sem_get_internal count .BLOCK_TYPE_ENDLESS 0xFF now suspended

/-- Overall return value of sem_get when the semaphore event (a release or a
destroy) wakes the task after k tick interrupts have run: an immediate return
keeps its code, a blocked task re-checks its event_timeout_wakeup flag. -/
def sem_get_result (count now : Nat) (suspended : Bool) (k : Nat) :
    zk_error_code_t :=
  match sem_get count now suspended with
  | .ret c _ => c
  | .blocked wake ontl =>
    event_wait_result
      (run_ticks
        { time := now, wake_up_time := wake,
          event_timeout_wakeup := false, on_timeout_list := ontl } k)

/-- The blocked-task state right after sem_get_internal with
BLOCK_TYPE_TIMEOUT suspends at tick now with the given timeout. -/
def sem_timed_wait_state (now timeout : Nat) : BlockedTaskState :=
  { time := now, wake_up_time := (now + timeout) % U32_MOD,
    event_timeout_wakeup := false, on_timeout_list := true }

/-- A waiter on a semaphore wait list: task id plus its
event_timeout_wakeup flag (cleared when the task blocked). -/
structure SemWaiter where
  id : Nat
  event_timeout_wakeup : Bool
  deriving DecidableEq, Repr

structure semaphore_t where
  count : Nat
  is_used : Bool
  wait_list : List SemWaiter
  deriving DecidableEq, Repr

/-- sem_destroy: the while loop repeatedly wakes the waiter at the front of
the wait list (task_block_to_ready) until the list is empty, so the woken
sequence is exactly the wait list in order and no waiter flag is modified;
then count is zeroed and the slot marked unused.  Returns the cleared
semaphore and the list of woken waiters. -/
def sem_destroy (s : semaphore_t) : semaphore_t × List SemWaiter :=
  ({ count := 0, is_used := false, wait_list := [] }, s.wait_list)

/-- The return value the woken waiter subsequently produces inside its pending
sem_get / sem_get_timeout call: ZK_ERR_TIMEOUT iff its event_timeout_wakeup
flag was set, otherwise the pending ZK_SUCCESS. -/
def sem_waiter_result (w : SemWaiter) : zk_error_code_t :=
  if w.event_timeout_wakeup then .ZK_ERR_TIMEOUT else .ZK_SUCCESS

/-- A concrete created semaphore with two blocked waiters, used as a witness
input. -/
def sem_destroy_demo : semaphore_t :=
  { count := 0, is_used := true,
    wait_list := [{ id := 1, event_timeout_wakeup := false },
      { id := 2, event_timeout_wakeup := false }] }

/-! Mutex locking (zk_mutex.c mutex_lock_internal), abstracted to the fields
the control flow reads: the hold count and whether the owner is the caller. -/

inductive MutexLockOutcome where
  | ret (code : zk_error_code_t)
  | blocked (wake_up_time : Nat) (on_timeout_list : Bool)
  deriving DecidableEq, Repr

/-- mutex_lock_internal: ZK_ERR_STATE while the scheduler is suspended; a free
mutex is acquired; a recursive acquisition increments the hold count; with a
zero timeout the call fails with the would-block error; otherwise the caller
blocks (priority inheritance is propagated first, which does not affect the
outcome modelled here). -/
def mutex_lock_internal (owner_hold_count : Nat) (owner_is_current : Bool)
    (block_type : block_type_t) (timeout now : Nat) (suspended : Bool) :
    MutexLockOutcome :=
  if suspended then .ret .ZK_ERR_STATE
  else if owner_hold_count = 0 then .ret .ZK_SUCCESS
  else if owner_is_current then .ret .ZK_SUCCESS
  else if timeout = 0 then .ret .ZK_ERR_FAILED
  else .blocked ((now + timeout) % U32_MOD) (block_type == .BLOCK_TYPE_TIMEOUT)

/-- mutex_lock: infinite-wait variant, BLOCK_TYPE_ENDLESS with constant 0xFF. -/
def mutex_lock (owner_hold_count : Nat) (owner_is_current : Bool) (now : Nat)
    (suspended : Bool) : MutexLockOutcome :=
  mutex_lock_internal owner_hold_count owner_is_current .BLOCK_TYPE_ENDLESS
    0xFF now suspended

/-- Overall return value of mutex_lock when the handover wakes the task after
k ticks. -/
def mutex_lock_result (owner_hold_count : Nat) (owner_is_current : Bool)
    (now : Nat) (suspended : Bool) (k : Nat) : zk_error_code_t :=
  match mutex_lock owner_hold_count owner_is_current now suspended with
  | .ret c => c
  | .blocked wake ontl =>
    event_wait_result
      (run_ticks
        { time := now, wake_up_time := wake,
          event_timeout_wakeup := false, on_timeout_list := ontl } k)

/-! Queue (zk_queue.c).  The ring buffer is a byte list; handles are
abstracted to the addressed queue_t. -/

structure queue_t where
  data_buffer : List Nat
  element_single_size : Nat
  element_num : Nat
  read_pos : Nat
  write_pos : Nat
  deriving DecidableEq, Repr

/-- queue_remaining_space: used size is element_num - (read_pos - write_pos)
when read_pos > write_pos and write_pos - read_pos otherwise; remaining space
is element_num - used. -/
def queue_remaining_space (q : queue_t) : Nat :=
  let used_size :=
    if q.read_pos > q.write_pos then
      q.element_num - (q.read_pos - q.write_pos)
    else
      q.write_pos - q.read_pos
  q.element_num - used_size

/-- queue_full: remaining space equals zero. -/
def queue_full (q : queue_t) : Bool :=
  queue_remaining_space q == 0

/-- queue_empty: read_pos equals write_pos. -/
def queue_empty (q : queue_t) : Bool :=
  q.read_pos == q.write_pos

def queue_write_pos_increase (q : queue_t) : queue_t :=
  if q.write_pos + 1 = q.element_num then { q with write_pos := 0 }
  else { q with write_pos := q.write_pos + 1 }

def queue_read_pos_increase (q : queue_t) : queue_t :=
  if q.read_pos + 1 = q.element_num then { q with read_pos := 0 }
  else { q with read_pos := q.read_pos + 1 }

/-- zk_memcpy specialised to copying src into the byte list dst starting at
offset off: the C loop writes one byte at a time (writes beyond the end of
the allocation are modelled as no-ops of List.set, which cannot occur on the
in-bounds calls the queue makes). -/
def zk_memcpy_list (dst : List Nat) (off : Nat) (src : List Nat) : List Nat :=
  match src with
  | [] => dst
  | b :: rest => zk_memcpy_list (dst.set off b) (off + 1) rest

/-- Outcome of queue_write_internal up to its suspension point. -/
inductive QueueWriteOutcome where
  | ret (code : zk_error_code_t) (q : queue_t)
  | blocked (wake_up_time : Nat) (on_timeout_list : Bool) (q : queue_t)
  deriving DecidableEq, Repr

/-- queue_write_internal: reject a write larger than the element size; while
the queue is full, a zero timeout fails with the would-block error, a
suspended scheduler fails with ZK_ERR_STATE, otherwise the writer blocks on
the writer sleep list (priority-sorted, on the timeout list iff
BLOCK_TYPE_TIMEOUT) with wake_up_time = now + timeout; otherwise size bytes
are copied into slot write_pos (byte offset element_single_size * write_pos)
and write_pos advances modulo element_num.  Waking one sleeping reader on
success does not change the fields modelled here. -/
def queue_write_internal (q : queue_t) (buffer : List Nat)
    (block_type : block_type_t) (timeout now : Nat) (suspended : Bool) :
    QueueWriteOutcome :=
  if q.element_single_size < buffer.length then
    .ret .ZK_ERR_QUEUE_SIZE_MISMATCH q
  else if queue_full q then
    if timeout = 0 then .ret .ZK_ERR_FAILED q
    else if suspended then .ret .ZK_ERR_STATE q
    else .blocked ((now + timeout) % U32_MOD)
      (block_type == .BLOCK_TYPE_TIMEOUT) q
  else
    let addr := q.element_single_size * q.write_pos
    let q2 := { q with data_buffer := zk_memcpy_list q.data_buffer addr buffer }
    .ret .ZK_SUCCESS (queue_write_pos_increase q2)

/-- Outcome of queue_read_internal: immediate returns carry the bytes copied
out to the caller buffer. -/
inductive QueueReadOutcome where
  | ret (code : zk_error_code_t) (bytes : List Nat) (q : queue_t)
  | blocked (wake_up_time : Nat) (on_timeout_list : Bool) (q : queue_t)
  deriving DecidableEq, Repr

/-- queue_read_internal: symmetric to the writer, using queue_empty and
read_pos; on success size bytes are copied out of slot read_pos and read_pos
advances modulo element_num. -/
def queue_read_internal (q : queue_t) (size : Nat)
    (block_type : block_type_t) (timeout now : Nat) (suspended : Bool) :
    QueueReadOutcome :=
  if q.element_single_size < size then
    .ret .ZK_ERR_QUEUE_SIZE_MISMATCH [] q
  else if queue_empty q then
    if timeout = 0 then .ret .ZK_ERR_FAILED [] q
    else if suspended then .ret .ZK_ERR_STATE [] q
    else .blocked ((now + timeout) % U32_MOD)
      (block_type == .BLOCK_TYPE_TIMEOUT) q
  else
    let addr := q.element_single_size * q.read_pos
    .ret .ZK_SUCCESS ((q.data_buffer.drop addr).take size)
      (queue_read_pos_increase q)

/-- Overall return value of queue_write (infinite-wait variant,
BLOCK_TYPE_ENDLESS with ZK_TIMEOUT_INFINITE) when a wakeup arrives after k
ticks. -/
def queue_write_result (q : queue_t) (buffer : List Nat) (now : Nat)
    (suspended : Bool) (k : Nat) : zk_error_code_t :=
  match queue_write_internal q buffer .BLOCK_TYPE_ENDLESS ZK_TIMEOUT_INFINITE
      now suspended with
  | .ret c _ => c
  | .blocked wake ontl _ =>
    event_wait_result
      (run_ticks
        { time := now, wake_up_time := wake,
          event_timeout_wakeup := false, on_timeout_list := ontl } k)

/-- Overall return value of queue_read (infinite-wait variant). -/
def queue_read_result (q : queue_t) (size now : Nat)
    (suspended : Bool) (k : Nat) : zk_error_code_t :=
  match queue_read_internal q size .BLOCK_TYPE_ENDLESS ZK_TIMEOUT_INFINITE
      now suspended with
  | .ret c _ _ => c
  | .blocked wake ontl _ =>
    event_wait_result
      (run_ticks
        { time := now, wake_up_time := wake,
          event_timeout_wakeup := false, on_timeout_list := ontl } k)

/-- The queue_t produced by a successful queue_create of element size S and
element count C over a fresh buffer buf (mem_alloc does not initialise the
memory, so the byte contents are arbitrary and passed in). -/
def queue_after_create (S C : Nat) (buf : List Nat) : queue_t :=
  { data_buffer := buf, element_single_size := S, element_num := C,
    read_pos := 0, write_pos := 0 }

/-- The QUEUE_CHECK_HANDLE_VALID macro of zk_def.h: it returns
ZK_ERR_INVALID_HANDLE when handle > QUEUE_MAX_NUM and otherwise lets the call
proceed to index g_queue_pool[handle]. -/
def queue_check_handle_valid (queue_max_num handle : Nat) :
    Option zk_error_code_t :=
  if queue_max_num < handle then some .ZK_ERR_INVALID_HANDLE else none

/-- Sequence of writes with no intervening reads: each element of ds is
written with a zero timeout; the sequence aborts (none) as soon as one write
does not return ZK_SUCCESS. -/
def queue_write_seq (q : queue_t) (ds : List (List Nat)) : Option queue_t :=
  match ds with
  | [] => some q
  | d :: rest =>
    match queue_write_internal q d .BLOCK_TYPE_ENDLESS 0 0 false with
    | .ret .ZK_SUCCESS q2 => queue_write_seq q2 rest
    | _ => none

/-- Write data into a freshly created queue, then read data.length bytes
back: returns the bytes the read delivers if both calls return ZK_SUCCESS. -/
def write_then_read (S C : Nat) (buf data : List Nat) : Option (List Nat) :=
  match queue_write_internal (queue_after_create S C buf) data
      .BLOCK_TYPE_ENDLESS ZK_TIMEOUT_INFINITE 0 false with
  | .ret .ZK_SUCCESS q1 =>
    match queue_read_internal q1 data.length .BLOCK_TYPE_ENDLESS
        ZK_TIMEOUT_INFINITE 0 false with
    | .ret .ZK_SUCCESS bytes _ => some bytes
    | _ => none
  | _ => none

/-- Perform ds writes on a freshly created queue, then report the remaining
space and the return code of one further write (extra) with a zero timeout
(the queue_try_write path). -/
def writes_then_status (S C : Nat) (buf : List Nat) (ds : List (List Nat))
    (extra : List Nat) : Option (Nat × zk_error_code_t) :=
  match queue_write_seq (queue_after_create S C buf) ds with
  | some q2 =>
    match queue_write_internal q2 extra .BLOCK_TYPE_ENDLESS 0 0 false with
    | .ret c _ => some (queue_remaining_space q2, c)
    | .blocked _ _ _ => none
  | none => none

/-! Heap allocator (zk_mem.c).  A heap block is its header address and its
size field; the two global lists are modelled by the free list (the used list
only matters for mem_free, which is not needed by the claims). -/

structure MemBlock where
  addr : Nat
  size : Nat
  deriving DecidableEq, Repr

structure MemState where
  free_list : List MemBlock
  available_size : Nat
  deriving DecidableEq, Repr

/-- sizeof(mem_block_t) on the 32-bit target: two 4-byte list-node pointers
plus the 4-byte size field. -/
def mem_block_struct_size : Nat := 12

/-- MEM_BLOCK_ALIGNMENT = (sizeof(mem_block_t) + (ZK_BYTE_ALIGNMENT-1)) &
~(ZK_BYTE_ALIGNMENT-1), the aligned header size (16 with 8-byte alignment). -/
def MEM_BLOCK_ALIGNMENT : Nat :=
  (mem_block_struct_size + (ZK_BYTE_ALIGNMENT - 1)) &&&
    (ZK_UINT32_MAX ^^^ ZK_BYTE_ALIGNMENT_MASK)

/-- MEM_BLOCK_MIN_SIZE = MEM_BLOCK_ALIGNMENT << 1. -/
def MEM_BLOCK_MIN_SIZE : Nat := MEM_BLOCK_ALIGNMENT <<< 1

/-- zk_addr_align from zk_def.h: if addr has bits under the mask, clear them
and add align (uint32 arithmetic). -/
def zk_addr_align (addr align mask : Nat) : Nat :=
  if addr &&& mask ≠ 0 then
    ((addr &&& (ZK_UINT32_MAX ^^^ mask)) + align) % U32_MOD
  else addr

/-- mem_free_list_insert_by_addr: walk the free list and insert the block
before the first block at a higher address, or at the tail. -/
def mem_free_list_insert_by_addr (free_list : List MemBlock) (b : MemBlock) :
    List MemBlock :=
  match free_list with
  | [] => [b]
  | x :: rest =>
    if b.addr < x.addr then b :: x :: rest
    else x :: mem_free_list_insert_by_addr rest b

/-- The requested size after adding the header and aligning up, clamped to
MEM_BLOCK_MIN_SIZE (mem_alloc lines 94-101); the sum request_size +
MEM_BLOCK_ALIGNMENT is a uint32 sum (the separate zk_add_overflow guard in
mem_alloc rejects a wrapping sum before this value is used). -/
def mem_alloc_final_size (request_size : Nat) : Nat :=
  let aligned := zk_addr_align ((request_size + MEM_BLOCK_ALIGNMENT) % U32_MOD)
    ZK_BYTE_ALIGNMENT ZK_BYTE_ALIGNMENT_MASK
  if aligned < MEM_BLOCK_MIN_SIZE then MEM_BLOCK_MIN_SIZE else aligned

/-- The free-list walk of mem_alloc: return the first block whose size is at
least final_size together with the free list with that block removed; none
when no block fits. -/
def mem_alloc_walk (free_list : List MemBlock) (final_size : Nat) :
    Option (MemBlock × List MemBlock) :=
  match free_list with
  | [] => none
  | b :: rest =>
    if final_size ≤ b.size then some (b, rest)
    else
      match mem_alloc_walk rest final_size with
      | some (c, rest2) => some (c, b :: rest2)
      | none => none

/-- mem_alloc: zero requests return null; a wrapping request + header sum
returns null; compute the clamped aligned size; fail when it exceeds the
available byte count; first-fit walk of the address-ordered free list; split
off the remainder as a new free block (inserted by address) when it is at
least MEM_BLOCK_MIN_SIZE, otherwise hand over the whole block; the user
pointer is the header address plus MEM_BLOCK_ALIGNMENT.  When the free list
is non-empty but no block fits, the C loop leaves allocated_block pointing at
the last examined block and mem_alloc returns a pointer into it without
unlinking it or touching any counter; this fall-through is reproduced
verbatim. -/
def mem_alloc (st : MemState) (request_size : Nat) : Option Nat × MemState :=
  if request_size = 0 then (none, st)
  else if U32_MOD ≤ request_size + MEM_BLOCK_ALIGNMENT then (none, st)
  else
    let final_size := mem_alloc_final_size request_size
    if st.available_size < final_size then (none, st)
    else
      match mem_alloc_walk st.free_list final_size with
      | some (blk, rest) =>
        if MEM_BLOCK_MIN_SIZE ≤ blk.size - final_size then
          (some (blk.addr + MEM_BLOCK_ALIGNMENT),
           { free_list := mem_free_list_insert_by_addr rest
               { addr := blk.addr + final_size, size := blk.size - final_size },
             available_size := st.available_size - final_size })
        else
          (some (blk.addr + MEM_BLOCK_ALIGNMENT),
           { free_list := rest,
             available_size := st.available_size - final_size })
      | none =>
        match st.free_list.getLast? with
        | some lastBlk => (some (lastBlk.addr + MEM_BLOCK_ALIGNMENT), st)
        | none => (none, st)

/-! queue_create (zk_queue.c): the data-buffer size is the unchecked 32-bit
product element_num * element_single_size. -/

structure QueueCreateResult where
  code : zk_error_code_t
  queue : Option queue_t
  mem : MemState
  deriving DecidableEq, Repr

/-- queue_create: reject zero parameters; allocate
element_num * element_single_size bytes, a product taken modulo 2^32 as the
32-bit multiplication in the C source wraps silently; on allocation failure
return ZK_ERR_NOT_ENOUGH_MEMORY; pool-slot acquisition is abstracted by
has_free_slot (on exhaustion the buffer is freed again and the memory state
restored).  The created queue records the element size, the element count and
the allocated buffer, whose byte contents are indeterminate (all-zero bytes
stand in for them; only the length matters to the claims). -/
def queue_create (st : MemState) (element_single_size element_num : Nat)
    (has_free_slot : Bool) : QueueCreateResult :=
  if element_single_size = 0 ∨ element_num = 0 then
    { code := .ZK_ERR_INVALID_PARAM, queue := none, mem := st }
  else
    let alloc_size := (element_num * element_single_size) % U32_MOD
    match mem_alloc st alloc_size with
    | (none, st2) => { code := .ZK_ERR_NOT_ENOUGH_MEMORY, queue := none, mem := st2 }
    | (some _, st2) =>
      if has_free_slot then
        { code := .ZK_SUCCESS,
          queue := some (queue_after_create element_single_size element_num
            (List.replicate alloc_size 0)),
          mem := st2 }
      else
        { code := .ZK_ERR_RESOURCE_UNAVAILABLE, queue := none, mem := st }

/-- A concrete memory state used as a witness input: the single fresh free
block of a 10 KiB heap. -/
def mem_demo_state : MemState :=
  { free_list := [{ addr := 0, size := 10240 }], available_size := 10240 }

/-! Scheduler (zk_scheduler.c schedule and get_highest_priority_task). -/

/-- zk_cpu_clz as used by get_highest_priority_task: RBIT followed by CLZ
finds the position of the lowest set bit of the 32-bit priority bitmap (32
when the bitmap is zero, since CLZ of 0 is 32). -/
def ffs_go (value i fuel : Nat) : Nat :=
  match fuel with
  | 0 => 32
  | f + 1 => if value.testBit i then i else ffs_go value (i + 1) f

def zk_cpu_clz_rbit (value : Nat) : Nat :=
  ffs_go value 0 32

structure SchedState where
  ready : List (List WaitTask)
  priority_active : Nat
  suspended : Bool
  re_schedule_pending : Bool
  current : WaitTask
  deriving DecidableEq, Repr

/-- The ready list of a given priority (an out-of-range index reads as an
empty list; the real array has ZK_PRIORITY_NUM entries). -/
def readyD (s : SchedState) (i : Nat) : List WaitTask :=
  s.ready.getD i []

/-- get_highest_priority_task: the head of
ready_list[zk_cpu_clz(priority_active)]. -/
def get_highest_priority_task (s : SchedState) : Option WaitTask :=
  (readyD s (zk_cpu_clz_rbit s.priority_active)).head?

structure ScheduleResult where
  st : SchedState
  need_switch : Bool
  switch_next : Option WaitTask
  deriving DecidableEq, Repr

/-- schedule(): while the scheduler is suspended, set re_schedule_pending and
return without a switch; otherwise write switch_next = the highest-priority
ready task; if its priority differs from the current priority request a
context switch; with equal priorities, when the current task is alone on its
ready list (its list node has the head sentinel on both sides) no switch is
requested, otherwise the current task moves to the tail of its ready list,
switch_next becomes the new head, and a switch is requested.  The
get-highest read of an empty list is undefined in C and modelled as a no-op
result (unreachable while any task is ready). -/
def schedule (s : SchedState) : ScheduleResult :=
  if s.suspended then
    { st := { s with re_schedule_pending := true },
      need_switch := false, switch_next := none }
  else
    match get_highest_priority_task s with
    | none => { st := s, need_switch := false, switch_next := none }
    | some next =>
      if next.priority ≠ s.current.priority then
        { st := s, need_switch := true, switch_next := some next }
      else
        let lst := readyD s s.current.priority
        if lst = [s.current] then
          { st := s, need_switch := false, switch_next := some next }
        else
          let lst2 := lst.erase s.current ++ [s.current]
          { st := { s with ready := s.ready.set s.current.priority lst2 },
            need_switch := true, switch_next := lst2.head? }

/-- A concrete scheduler state used as a witness input: two tasks ready at
priority 2 (the current task first) and one at priority 5; the bitmap 36 has
exactly bits 2 and 5 set. -/
def sched_demo_state : SchedState :=
  { ready := ((List.replicate 32 ([] : List WaitTask)).set 2
      [{ id := 1, priority := 2 }, { id := 2, priority := 2 }]).set 5
      [{ id := 3, priority := 5 }],
    priority_active := 36, suspended := false, re_schedule_pending := false,
    current := { id := 1, priority := 2 } }

/-! Helper lemmas. -/

/-- The wrap-safe comparison holds when now equals the target. -/
theorem zk_time_is_reached_self (x : Nat) : zk_time_is_reached x x = true := by
  unfold zk_time_is_reached U32_MOD
  rw [decide_eq_true_iff]
  omega

/-- The wrap-safe comparison is false at base + j against target base + tau
for j < tau < 2^31 (no spurious early wakeup, even across wrap-around). -/
theorem zk_time_is_reached_early (base j tau : Nat) (hj : j < tau)
    (htau : tau < 2147483648) :
    zk_time_is_reached ((base + j) % U32_MOD) ((base + tau) % U32_MOD) = false := by
  unfold zk_time_is_reached U32_MOD
  rw [decide_eq_false_iff_not]
  omega

/-- A task that is not on the block_timeout_list is never flagged by the tick
scanner: its event_timeout_wakeup stays clear through any number of ticks. -/
theorem run_ticks_off_timeout_list (s : BlockedTaskState) (k : Nat)
    (h1 : s.on_timeout_list = false) (h2 : s.event_timeout_wakeup = false) :
    (run_ticks s k).on_timeout_list = false ∧
    (run_ticks s k).event_timeout_wakeup = false := by
  induction k with
  | zero => exact ⟨h1, h2⟩
  | succ k ih =>
    simp only [run_ticks, scheduler_tick_scan]
    rw [ih.1]
    simp [ih.1, ih.2]

/-- The post-wake flag check of an endlessly blocked task always yields
ZK_SUCCESS. -/
theorem event_wait_result_endless (now wake k : Nat) :
    event_wait_result
      (run_ticks
        { time := now, wake_up_time := wake,
          event_timeout_wakeup := false, on_timeout_list := false } k) =
      .ZK_SUCCESS := by
  have h := run_ticks_off_timeout_list
    { time := now, wake_up_time := wake,
      event_timeout_wakeup := false, on_timeout_list := false } k rfl rfl
  simp [event_wait_result, h.2]

/-- While k does not exceed the timeout, the timed waiter installed by
sem_get_internal is still blocked and unflagged, and its observed time has
advanced by exactly k ticks. -/
theorem run_ticks_timed_wait (now tau : Nat) (hnow : now < U32_MOD)
    (htau : tau < 2147483648) :
    ∀ k, k ≤ tau → run_ticks (sem_timed_wait_state now tau) k =
      { time := (now + k) % U32_MOD, wake_up_time := (now + tau) % U32_MOD,
        event_timeout_wakeup := false, on_timeout_list := true } := by
  intro k
  induction k with
  | zero =>
    intro _
    simp [run_ticks, sem_timed_wait_state, Nat.mod_eq_of_lt hnow]
  | succ k ih =>
    intro hk
    have hk2 : k ≤ tau := Nat.le_of_succ_le hk
    have hklt : k < tau := Nat.lt_of_succ_le hk
    rw [run_ticks, ih hk2]
    simp only [scheduler_tick_scan, zk_time_is_reached_early now k tau hklt htau,
      Bool.and_false, Bool.false_eq_true, if_false]
    simp [Nat.mod_add_mod, Nat.add_assoc]

/-- Length is preserved by the byte-copy loop. -/
theorem zk_memcpy_list_length (src : List Nat) :
    ∀ (dst : List Nat) (off : Nat),
      (zk_memcpy_list dst off src).length = dst.length := by
  induction src with
  | nil => intro dst off; rfl
  | cons b rest ih =>
    intro dst off
    rw [zk_memcpy_list, ih, List.length_set]

/-- Bytes below the copy offset are untouched by the byte-copy loop. -/
theorem zk_memcpy_list_getElem_lt (src : List Nat) :
    ∀ (dst : List Nat) (off i : Nat), i < off →
      (zk_memcpy_list dst off src)[i]? = dst[i]? := by
  induction src with
  | nil => intro dst off i _; rfl
  | cons b rest ih =>
    intro dst off i hi
    rw [zk_memcpy_list, ih (dst.set off b) (off + 1) i (by omega)]
    exact List.getElem?_set_ne (by omega)

/-- Reading back a copied region returns the copied bytes. -/
theorem zk_memcpy_list_read (src : List Nat) :
    ∀ (dst : List Nat) (off : Nat), off + src.length ≤ dst.length →
      ((zk_memcpy_list dst off src).drop off).take src.length = src := by
  induction src with
  | nil => intro dst off _; simp
  | cons b rest ih =>
    intro dst off h
    have hlen : off < dst.length := by
      simp only [List.length_cons] at h; omega
    rw [zk_memcpy_list]
    have hlen2 : (zk_memcpy_list (dst.set off b) (off + 1) rest).length =
        dst.length := by
      rw [zk_memcpy_list_length, List.length_set]
    have hoff : off < (zk_memcpy_list (dst.set off b) (off + 1) rest).length := by
      omega
    rw [List.drop_eq_getElem_cons hoff, List.length_cons, List.take_succ_cons]
    have hhead : (zk_memcpy_list (dst.set off b) (off + 1) rest)[off] = b := by
      have h1 : (zk_memcpy_list (dst.set off b) (off + 1) rest)[off]? =
          (dst.set off b)[off]? :=
        zk_memcpy_list_getElem_lt rest (dst.set off b) (off + 1) off (by omega)
      have h2 : (dst.set off b)[off]? = some b := by
        rw [List.getElem?_set_self]
        · simp [hlen]
      have := (List.getElem?_eq_getElem hoff).symm.trans (h1.trans h2)
      exact Option.some.inj this
    rw [hhead]
    have htail := ih (dst.set off b) (off + 1)
      (by rw [List.length_set]; simp only [List.length_cons] at h; omega)
    rw [htail]

/-- The bounded scan underlying zk_cpu_clz_rbit finds a set bit and nothing
below it. -/
theorem ffs_go_spec (value : Nat) :
    ∀ (fuel i : Nat), ffs_go value i fuel ≠ 32 →
      value.testBit (ffs_go value i fuel) = true ∧
      i ≤ ffs_go value i fuel ∧ ffs_go value i fuel < i + fuel ∧
      ∀ m, i ≤ m → m < ffs_go value i fuel → value.testBit m = false := by
  intro fuel
  induction fuel with
  | zero => intro i h; simp [ffs_go] at h
  | succ f ih =>
    intro i h
    by_cases hb : value.testBit i
    · have hr : ffs_go value i (f + 1) = i := by rw [ffs_go, if_pos hb]
      rw [hr]
      exact ⟨hb, Nat.le_refl i, by omega, fun m hm1 hm2 => absurd hm1 (by omega)⟩
    · have hr : ffs_go value i (f + 1) = ffs_go value (i + 1) f := by
        rw [ffs_go, if_neg hb]
      rw [hr] at h ⊢
      obtain ⟨h1, h2, h3, h4⟩ := ih (i + 1) h
      refine ⟨h1, by omega, by omega, fun m hm1 hm2 => ?_⟩
      by_cases hmi : m = i
      · subst hmi; simpa using hb
      · exact h4 m (by omega) hm2

/-- The found bit of zk_cpu_clz_rbit is set and minimal. -/
theorem zk_cpu_clz_rbit_spec (value : Nat) (h : zk_cpu_clz_rbit value ≠ 32) :
    value.testBit (zk_cpu_clz_rbit value) = true ∧
    zk_cpu_clz_rbit value < 32 ∧
    ∀ m < zk_cpu_clz_rbit value, value.testBit m = false := by
  have hd : zk_cpu_clz_rbit value = ffs_go value 0 32 := rfl
  rw [hd] at h ⊢
  obtain ⟨h1, _, h3, h4⟩ := ffs_go_spec value 32 0 h
  exact ⟨h1, by omega, fun m hm => h4 m (Nat.zero_le m) hm⟩

/-- Decomposition of a successful find?: the list splits at the found element
and eraseP removes exactly it. -/
theorem find_eraseP_split {α : Type} {p : α → Bool} :
    ∀ (l : List α) (b : α), l.find? p = some b →
      ∃ pre post, l = pre ++ b :: post ∧ (∀ x ∈ pre, p x = false) ∧
        l.eraseP p = pre ++ post := by
  intro l
  induction l with
  | nil => intro b h; simp [List.find?] at h
  | cons x rest ih =>
    intro b h
    rw [List.find?_cons] at h
    by_cases hx : p x
    · simp only [hx, if_true, Option.some.injEq] at h
      subst h
      exact ⟨[], rest, rfl, by simp, by simp [List.eraseP_cons, hx]⟩
    · simp only [hx, Bool.false_eq_true, if_false] at h
      obtain ⟨pre, post, h1, h2, h3⟩ := ih b h
      refine ⟨x :: pre, post, by simp [h1], ?_, ?_⟩
      · intro y hy
        rcases List.mem_cons.mp hy with hyx | hyp
        · subst hyx; simpa using hx
        · exact h2 y hyp
      · simp [List.eraseP_cons, hx, h3]

/-- The first-fit walk on a list split at the first fitting block. -/
theorem mem_alloc_walk_of_split (fs : Nat) :
    ∀ (pre post : List MemBlock) (blk : MemBlock),
      (∀ x ∈ pre, ¬ fs ≤ x.size) → fs ≤ blk.size →
      mem_alloc_walk (pre ++ blk :: post) fs = some (blk, pre ++ post) := by
  intro pre
  induction pre with
  | nil => intro post blk _ hb; simp [mem_alloc_walk, hb]
  | cons x rest ih =>
    intro post blk hpre hb
    rw [List.cons_append, mem_alloc_walk]
    rw [if_neg (hpre x (List.mem_cons_self x rest))]
    rw [ih post blk (fun y hy => hpre y (List.mem_cons_of_mem x hy)) hb]
    rfl

/-- Members of the address-ordered insertion are the old members plus the new
block. -/
theorem mem_free_list_insert_by_addr_mem :
    ∀ (l : List MemBlock) (b x : MemBlock),
      x ∈ mem_free_list_insert_by_addr l b → x ∈ l ∨ x = b := by
  intro l
  induction l with
  | nil => intro b x hx; simp [mem_free_list_insert_by_addr] at hx; exact Or.inr hx
  | cons y rest ih =>
    intro b x hx
    rw [mem_free_list_insert_by_addr] at hx
    by_cases hc : b.addr < y.addr
    · rw [if_pos hc] at hx
      rcases List.mem_cons.mp hx with h1 | h2
      · exact Or.inr h1
      · exact Or.inl h2
    · rw [if_neg hc] at hx
      rcases List.mem_cons.mp hx with h1 | h2
      · exact Or.inl (by simp [h1])
      · rcases ih b x h2 with h3 | h4
        · exact Or.inl (List.mem_cons_of_mem y h3)
        · exact Or.inr h4

/-- Address-ordered insertion of a block that does not overlap any list
member keeps the free list ordered and non-overlapping. -/
theorem mem_free_list_insert_by_addr_pairwise :
    ∀ (l : List MemBlock) (b : MemBlock),
      l.Pairwise (fun a c => a.addr + a.size ≤ c.addr) →
      (∀ x ∈ l, (x.addr + x.size ≤ b.addr ∧ x.addr ≤ b.addr) ∨
        (b.addr + b.size ≤ x.addr ∧ b.addr < x.addr)) →
      (mem_free_list_insert_by_addr l b).Pairwise
        (fun a c => a.addr + a.size ≤ c.addr) := by
  intro l
  induction l with
  | nil => intro b _ _; simp [mem_free_list_insert_by_addr]
  | cons x rest ih =>
    intro b hl hb
    rw [List.pairwise_cons] at hl
    rw [mem_free_list_insert_by_addr]
    by_cases hc : b.addr < x.addr
    · rw [if_pos hc]
      have hbx : b.addr + b.size ≤ x.addr := by
        rcases hb x (List.mem_cons_self x rest) with ⟨_, h2⟩ | ⟨h1, _⟩
        · omega
        · exact h1
      rw [List.pairwise_cons]
      refine ⟨?_, List.pairwise_cons.mpr hl⟩
      intro c hc2
      rcases List.mem_cons.mp hc2 with h1 | h2
      · subst h1; exact hbx
      · have := hl.1 c h2
        omega
    · rw [if_neg hc]
      have hxb : x.addr + x.size ≤ b.addr := by
        rcases hb x (List.mem_cons_self x rest) with ⟨h1, _⟩ | ⟨_, h2⟩
        · exact h1
        · omega
      rw [List.pairwise_cons]
      refine ⟨?_, ih b hl.2 (fun y hy => hb y (List.mem_cons_of_mem x hy))⟩
      intro c hc2
      rcases mem_free_list_insert_by_addr_mem rest b c hc2 with h1 | h2
      · exact hl.1 c h1
      · subst h2; exact hxb

/-- A sequence of zero-timeout writes on a queue whose derived used size never
reaches the capacity: every write succeeds and the write index advances
modulo the capacity while the read index stays put. -/
theorem queue_write_seq_ok (S C : Nat) (hC : 0 < C) :
    ∀ (ds : List (List Nat)) (q : queue_t),
      q.element_single_size = S → q.element_num = C → q.read_pos = 0 →
      q.write_pos < C → (∀ d ∈ ds, d.length ≤ S) →
      ∃ q2, queue_write_seq q ds = some q2 ∧
        q2.element_single_size = S ∧ q2.element_num = C ∧ q2.read_pos = 0 ∧
        q2.write_pos = (q.write_pos + ds.length) % C := by
  intro ds
  induction ds with
  | nil =>
    intro q h1 h2 h3 h4 _
    refine ⟨q, rfl, h1, h2, h3, ?_⟩
    simp [Nat.mod_eq_of_lt h4]
  | cons d rest ih =>
    intro q h1 h2 h3 h4 h5
    have hnotfull : queue_full q = false := by
      simp only [queue_full, queue_remaining_space, h2, h3]
      simp only [gt_iff_lt, Nat.not_lt_zero, if_false, beq_eq_false_iff_ne]
      omega
    have hsz : ¬ (q.element_single_size < d.length) := by
      rw [h1]
      exact Nat.not_lt.mpr (h5 d (List.mem_cons_self d rest))
    have hstep : queue_write_internal q d .BLOCK_TYPE_ENDLESS 0 0 false =
        .ret .ZK_SUCCESS (queue_write_pos_increase
          { q with data_buffer :=
              zk_memcpy_list q.data_buffer (q.element_single_size * q.write_pos) d }) := by
      rw [queue_write_internal, if_neg hsz, hnotfull]
      simp
    have hq2fields :
        (queue_write_pos_increase
          { q with data_buffer :=
              zk_memcpy_list q.data_buffer (q.element_single_size * q.write_pos) d }).element_single_size = S ∧
        (queue_write_pos_increase
          { q with data_buffer :=
              zk_memcpy_list q.data_buffer (q.element_single_size * q.write_pos) d }).element_num = C ∧
        (queue_write_pos_increase
          { q with data_buffer :=
              zk_memcpy_list q.data_buffer (q.element_single_size * q.write_pos) d }).read_pos = 0 ∧
        (queue_write_pos_increase
          { q with data_buffer :=
              zk_memcpy_list q.data_buffer (q.element_single_size * q.write_pos) d }).write_pos =
          (q.write_pos + 1) % C := by
      rw [queue_write_pos_increase]
      by_cases hw : q.write_pos + 1 = q.element_num
      · rw [if_pos hw]
        refine ⟨h1, h2, h3, ?_⟩
        simp only []
        rw [← h2, hw, Nat.mod_self]
      · rw [if_neg hw]
        refine ⟨h1, h2, h3, ?_⟩
        simp only []
        rw [Nat.mod_eq_of_lt (by omega : q.write_pos + 1 < C)]
    obtain ⟨q3, hseq, g1, g2, g3, g4⟩ := ih _ hq2fields.1 hq2fields.2.1
      hq2fields.2.2.1 (by rw [hq2fields.2.2.2]; exact Nat.mod_lt _ hC)
      (fun d2 hd2 => h5 d2 (List.mem_cons_of_mem d hd2))
    refine ⟨q3, ?_, g1, g2, g3, ?_⟩
    · rw [queue_write_seq, hstep]
      exact hseq
    · rw [g4, hq2fields.2.2.2, Nat.mod_add_mod, List.length_cons]
      congr 1
      omega

/-! Claim theorems. -/

/-- Claim C1, counterexample: on a queue of capacity 2 and element size 1,
both writes succeed, but the remaining space derived from the indices is then
2 (not 0) and a third write with zero timeout returns ZK_SUCCESS instead of
the would-block error ZK_ERR_FAILED. -/
theorem C1_counterexample :
    writes_then_status 1 2 [0, 0] [[1], [2]] [3] = some (2, .ZK_SUCCESS) ∧
    (2 : Nat) ≠ 0 ∧ zk_error_code_t.ZK_SUCCESS ≠ .ZK_ERR_FAILED := by
  decide

/-- Claim C1 (amended): on a freshly created queue of capacity C and element
size S, a successful write of n ≤ S bytes followed by a read of n bytes is a
byte-exact round trip whenever C ≥ 2 (with C = 1 the write wraps write_pos
back onto read_pos and the queue reports empty); and after C successful
writes with no intervening reads the wrap-aware index arithmetic reports a
used size of 0, so the remaining space equals C rather than 0 and the next
write with zero timeout returns ZK_SUCCESS, overwriting the oldest unread
element, instead of the would-block error. -/
theorem C1_amended (S C : Nat) (buf data extra : List Nat)
    (ds : List (List Nat)) (hS : 0 < S) (hC : 0 < C)
    (hbuf : buf.length = S * C) (hdata : data.length ≤ S)
    (hds_len : ds.length = C) (hds : ∀ d ∈ ds, d.length ≤ S)
    (hextra : extra.length ≤ S) :
    (2 ≤ C → write_then_read S C buf data = some data) ∧
    writes_then_status S C buf ds extra = some (C, .ZK_SUCCESS) := by
  constructor
  · intro hC2
    have hq0sz : ¬ ((queue_after_create S C buf).element_single_size <
        data.length) := by
      simp only [queue_after_create]
      exact Nat.not_lt.mpr hdata
    have hfull0 : queue_full (queue_after_create S C buf) = false := by
      simp only [queue_full, queue_remaining_space, queue_after_create,
        gt_iff_lt, Nat.lt_irrefl, if_false, Nat.sub_zero, beq_eq_false_iff_ne]
      omega
    have hq1 : queue_write_pos_increase
        { queue_after_create S C buf with
          data_buffer := zk_memcpy_list (queue_after_create S C buf).data_buffer
            ((queue_after_create S C buf).element_single_size *
              (queue_after_create S C buf).write_pos) data } =
        { data_buffer := zk_memcpy_list buf 0 data, element_single_size := S,
          element_num := C, read_pos := 0, write_pos := 1 } := by
      simp only [queue_after_create, queue_write_pos_increase, Nat.mul_zero]
      rw [if_neg (by omega : ¬ (0 + 1 = C))]
    have hwstep : queue_write_internal (queue_after_create S C buf) data
        .BLOCK_TYPE_ENDLESS ZK_TIMEOUT_INFINITE 0 false =
        .ret .ZK_SUCCESS
          { data_buffer := zk_memcpy_list buf 0 data, element_single_size := S,
            element_num := C, read_pos := 0, write_pos := 1 } := by
      rw [queue_write_internal, if_neg hq0sz, hfull0]
      simp only [Bool.false_eq_true, if_false, hq1]
    have hbytes : ((zk_memcpy_list buf 0 data).drop (S * 0)).take data.length =
        data := by
      rw [Nat.mul_zero]
      apply zk_memcpy_list_read
      have hSC : S ≤ S * C := Nat.le_mul_of_pos_right S hC
      omega
    have hrstep : queue_read_internal
        { data_buffer := zk_memcpy_list buf 0 data, element_single_size := S,
          element_num := C, read_pos := 0, write_pos := 1 } data.length
        .BLOCK_TYPE_ENDLESS ZK_TIMEOUT_INFINITE 0 false =
        .ret .ZK_SUCCESS data
          (queue_read_pos_increase
            { data_buffer := zk_memcpy_list buf 0 data,
              element_single_size := S, element_num := C, read_pos := 0,
              write_pos := 1 }) := by
      rw [queue_read_internal, if_neg (Nat.not_lt.mpr hdata)]
      have hempty : queue_empty
          { data_buffer := zk_memcpy_list buf 0 data, element_single_size := S,
            element_num := C, read_pos := 0, write_pos := 1 } = false := by
        simp [queue_empty]
      rw [hempty]
      simp only [Bool.false_eq_true, if_false, hbytes]
    simp only [write_then_read, hwstep, hrstep]
  · obtain ⟨q2, hseq, g1, g2, g3, g4⟩ := queue_write_seq_ok S C hC ds
      (queue_after_create S C buf) rfl rfl rfl hC hds
    have hwp : q2.write_pos = 0 := by
      rw [g4, hds_len]
      simp only [queue_after_create, Nat.zero_add, Nat.mod_self]
    have hrem : queue_remaining_space q2 = C := by
      simp only [queue_remaining_space, g2, g3, hwp, gt_iff_lt,
        Nat.lt_irrefl, if_false, Nat.sub_zero]
    have hfull2 : queue_full q2 = false := by
      simp only [queue_full, hrem, beq_eq_false_iff_ne]
      omega
    have hx : queue_write_internal q2 extra .BLOCK_TYPE_ENDLESS 0 0 false =
        .ret .ZK_SUCCESS (queue_write_pos_increase
          { q2 with data_buffer := (zk_memcpy_list q2.data_buffer (q2.element_single_size * q2.write_pos) extra) }) := by
      rw [queue_write_internal, if_neg (by rw [g1]; exact Nat.not_lt.mpr hextra),
        hfull2]
      simp
    simp only [writes_then_status, hseq, hx, hrem]

/-- Claim C1 (amended), witness: element size 2, capacity 3. -/
theorem C1_amended_witness :
    (0 < 2 ∧ 0 < 3 ∧ ([0, 0, 0, 0, 0, 0] : List Nat).length = 2 * 3 ∧
      ([7, 9] : List Nat).length ≤ 2 ∧
      ([[1], [2], [3]] : List (List Nat)).length = 3 ∧
      (∀ d ∈ ([[1], [2], [3]] : List (List Nat)), d.length ≤ 2) ∧
      ([4, 5] : List Nat).length ≤ 2) ∧
    ((2 ≤ 3 → write_then_read 2 3 [0, 0, 0, 0, 0, 0] [7, 9] = some [7, 9]) ∧
      writes_then_status 2 3 [0, 0, 0, 0, 0, 0] [[1], [2], [3]] [4, 5] =
        some (3, .ZK_SUCCESS)) :=
  ⟨by decide,
   C1_amended 2 3 [0, 0, 0, 0, 0, 0] [7, 9] [4, 5] [[1], [2], [3]]
     (by decide) (by decide) (by decide) (by decide) (by decide) (by decide)
     (by decide)⟩

/-- Claim C2: the claim states that waiter insertion is priority-sorted with
the numerically smallest priority at the head and that wakeup pops the head.
Evaluating the embedded insertion walk shows the opposite order: whether the
priority-3 task blocks before or after the priority-5 task, the list head --
the waiter every wakeup path pops -- is the priority-5 (lowest-urgency)
waiter, because the walk stops at the first waiter of numerically smaller
priority and otherwise appends at the tail. -/
theorem C2_wakeup_order_eval :
    add_task_to_endless_block_list
        (add_task_to_endless_block_list [] { id := 1, priority := 3 }
          .BLOCK_SORT_PRIORITY)
        { id := 2, priority := 5 } .BLOCK_SORT_PRIORITY =
      [{ id := 2, priority := 5 }, { id := 1, priority := 3 }] ∧
    wait_list_wakeup_choice
        (add_task_to_endless_block_list
          (add_task_to_endless_block_list [] { id := 1, priority := 3 }
            .BLOCK_SORT_PRIORITY)
          { id := 2, priority := 5 } .BLOCK_SORT_PRIORITY) =
      some { id := 2, priority := 5 } ∧
    wait_list_wakeup_choice
        (add_task_to_endless_block_list
          (add_task_to_endless_block_list [] { id := 2, priority := 5 }
            .BLOCK_SORT_PRIORITY)
          { id := 1, priority := 3 } .BLOCK_SORT_PRIORITY) =
      some { id := 2, priority := 5 } := by
  decide

/-- Claim C3: the claim states every timeout-taking API rejects timeouts at
or above UINT32_MAX/2 with an error.  Evaluating the embeddings at timeout
2^31 (which is at or above ZK_TSK_DLY_MAX = UINT32_MAX/2 = 2^31 - 1) shows
sem_get_timeout, mutex_lock_timeout and queue_write_timeout all accept it:
they succeed or block, and a blocking semaphore taker records the wrapped
wake-up time now + 2^31. -/
theorem C3_timeout_not_rejected_eval :
    ZK_TSK_DLY_MAX ≤ 2147483648 ∧
    sem_get_internal 1 .BLOCK_TYPE_TIMEOUT 2147483648 0 false =
      .ret .ZK_SUCCESS 0 ∧
    sem_get_internal 0 .BLOCK_TYPE_TIMEOUT 2147483648 100 false =
      .blocked 2147483748 true ∧
    mutex_lock_internal 0 false .BLOCK_TYPE_TIMEOUT 2147483648 0 false =
      .ret .ZK_SUCCESS ∧
    queue_write_internal
        { data_buffer := [0, 0], element_single_size := 1, element_num := 2,
          read_pos := 0, write_pos := 0 } [7]
        .BLOCK_TYPE_TIMEOUT 2147483648 0 false =
      .ret .ZK_SUCCESS
        { data_buffer := [7, 0], element_single_size := 1, element_num := 2,
          read_pos := 0, write_pos := 1 } := by
  decide

/-- Claim C5, counterexample: timeout 0 is below UINT32_MAX/2, yet
sem_get_timeout(0) on an empty semaphore returns the would-block error
ZK_ERR_FAILED immediately and is never woken by the tick scanner, so the
claim fails at tau = 0. -/
theorem C5_counterexample :
    sem_get_internal 0 .BLOCK_TYPE_TIMEOUT 0 0 false = .ret .ZK_ERR_FAILED 0 ∧
    zk_error_code_t.ZK_ERR_FAILED ≠ .ZK_ERR_TIMEOUT ∧
    (0 : Nat) < ZK_TSK_DLY_MAX := by
  decide

/-- Claim C5 (amended): for every timeout 0 < tau < UINT32_MAX/2, a task
calling sem_get_timeout(tau) at tick now on an empty, never-released
semaphore blocks on the timeout list with wake-up time now + tau; through
the first tau ticks (whose scans observe times now .. now+tau-1) it is not
woken; the scan that wakes it observes exactly tick now + tau (mod 2^32),
never earlier, sets EVENT_WAIT_TIMEOUT, and the resumed call then returns
ZK_ERR_TIMEOUT. -/
theorem C5_amended (now tau : Nat) (hnow : now < U32_MOD) (htau0 : 0 < tau)
    (htau : tau < ZK_TSK_DLY_MAX) :
    sem_get_internal 0 .BLOCK_TYPE_TIMEOUT tau now false =
      .blocked ((now + tau) % U32_MOD) true ∧
    (∀ k, k ≤ tau →
      (run_ticks (sem_timed_wait_state now tau) k).on_timeout_list = true ∧
      (run_ticks (sem_timed_wait_state now tau) k).event_timeout_wakeup = false) ∧
    (run_ticks (sem_timed_wait_state now tau) tau).time = (now + tau) % U32_MOD ∧
    (run_ticks (sem_timed_wait_state now tau) (tau + 1)).event_timeout_wakeup =
      true ∧
    (run_ticks (sem_timed_wait_state now tau) (tau + 1)).on_timeout_list =
      false ∧
    event_wait_result (run_ticks (sem_timed_wait_state now tau) (tau + 1)) =
      .ZK_ERR_TIMEOUT := by
  have htau31 : tau < 2147483648 := by
    have : ZK_TSK_DLY_MAX = 2147483647 := by decide
    omega
  have hinv := run_ticks_timed_wait now tau hnow htau31
  have hfinal : run_ticks (sem_timed_wait_state now tau) (tau + 1) =
      { time := ((now + tau) % U32_MOD + 1) % U32_MOD,
        wake_up_time := (now + tau) % U32_MOD,
        event_timeout_wakeup := true, on_timeout_list := false } := by
    rw [run_ticks, hinv tau (Nat.le_refl tau)]
    simp only [scheduler_tick_scan, zk_time_is_reached_self, Bool.and_true,
      if_true]
  refine ⟨?_, ?_, ?_, ?_, ?_, ?_⟩
  · have ht : tau ≠ 0 := by omega
    simp [sem_get_internal, ht]
  · intro k hk
    rw [hinv k hk]
    exact ⟨rfl, rfl⟩
  · rw [hinv tau (Nat.le_refl tau)]
  · rw [hfinal]
  · rw [hfinal]
  · rw [hfinal]
    rfl

/-- Claim C5 (amended), witness: now = 100, tau = 3. -/
theorem C5_amended_witness :
    (100 < U32_MOD ∧ 0 < 3 ∧ 3 < ZK_TSK_DLY_MAX) ∧
    (sem_get_internal 0 .BLOCK_TYPE_TIMEOUT 3 100 false =
        .blocked ((100 + 3) % U32_MOD) true ∧
      (∀ k, k ≤ 3 →
        (run_ticks (sem_timed_wait_state 100 3) k).on_timeout_list = true ∧
        (run_ticks (sem_timed_wait_state 100 3) k).event_timeout_wakeup =
          false) ∧
      (run_ticks (sem_timed_wait_state 100 3) 3).time = (100 + 3) % U32_MOD ∧
      (run_ticks (sem_timed_wait_state 100 3) (3 + 1)).event_timeout_wakeup =
        true ∧
      (run_ticks (sem_timed_wait_state 100 3) (3 + 1)).on_timeout_list =
        false ∧
      event_wait_result (run_ticks (sem_timed_wait_state 100 3) (3 + 1)) =
        .ZK_ERR_TIMEOUT) :=
  ⟨by decide, C5_amended 100 3 (by decide) (by decide) (by decide)⟩

/-- Claim C6, counterexample: destroying a semaphore with one waiter whose
event_timeout_wakeup flag is clear (as sem_get left it) wakes that waiter,
and its pending call then returns ZK_SUCCESS, not the timeout error the
claim promises. -/
theorem C6_counterexample :
    (sem_destroy
        { count := 0, is_used := true,
          wait_list := [{ id := 1, event_timeout_wakeup := false }] }).2 =
      [{ id := 1, event_timeout_wakeup := false }] ∧
    sem_waiter_result { id := 1, event_timeout_wakeup := false } =
      .ZK_SUCCESS ∧
    zk_error_code_t.ZK_SUCCESS ≠ .ZK_ERR_TIMEOUT := by
  decide

/-- Claim C6 (amended): sem_destroy wakes every waiter on the wait list (in
list order), empties the list, zeroes the count and marks the slot unused;
but because it does not set any waiter event_timeout_wakeup flag, each woken
waiter -- whose flag was cleared when it blocked -- resumes its pending
sem_get / sem_get_timeout call with ZK_SUCCESS rather than the timeout
error. -/
theorem C6_amended (s : semaphore_t)
    (h : ∀ w ∈ s.wait_list, w.event_timeout_wakeup = false) :
    (sem_destroy s).1.is_used = false ∧
    (sem_destroy s).1.count = 0 ∧
    (sem_destroy s).1.wait_list = [] ∧
    (sem_destroy s).2 = s.wait_list ∧
    ∀ w ∈ (sem_destroy s).2, sem_waiter_result w = .ZK_SUCCESS := by
  refine ⟨rfl, rfl, rfl, rfl, ?_⟩
  intro w hw
  have hflag := h w hw
  simp [sem_waiter_result, hflag]

/-- Claim C6 (amended), witness: two waiters with cleared flags. -/
theorem C6_amended_witness :
    (∀ w ∈ sem_destroy_demo.wait_list, w.event_timeout_wakeup = false) ∧
    ((sem_destroy sem_destroy_demo).1.is_used = false ∧
      (sem_destroy sem_destroy_demo).1.count = 0 ∧
      (sem_destroy sem_destroy_demo).1.wait_list = [] ∧
      (sem_destroy sem_destroy_demo).2 = sem_destroy_demo.wait_list ∧
      ∀ w ∈ (sem_destroy sem_destroy_demo).2,
        sem_waiter_result w = .ZK_SUCCESS) :=
  ⟨by decide, C6_amended sem_destroy_demo (by decide)⟩

/-- Claim C8: the infinite-wait variants sem_get, mutex_lock, queue_read and
queue_write block with BLOCK_TYPE_ENDLESS and hence are placed on the event
waiter list only, never on the timeout-blocked list; the tick scanner
therefore never sets their event_timeout_wakeup flag, and no run of these
calls -- woken after any number of ticks -- returns ZK_ERR_TIMEOUT. -/
theorem C8_endless_never_timeout (count owner_hold_count size now k : Nat)
    (owner_is_current suspended : Bool) (q : queue_t) (buffer : List Nat) :
    sem_get_result count now suspended k ≠ .ZK_ERR_TIMEOUT ∧
    mutex_lock_result owner_hold_count owner_is_current now suspended k ≠
      .ZK_ERR_TIMEOUT ∧
    queue_write_result q buffer now suspended k ≠ .ZK_ERR_TIMEOUT ∧
    queue_read_result q size now suspended k ≠ .ZK_ERR_TIMEOUT ∧
    (∀ wake ontl, sem_get count now suspended = .blocked wake ontl →
      ontl = false) := by
  have hsem : ∀ wake ontl, sem_get count now suspended = .blocked wake ontl →
      ontl = false := by
    intro wake ontl hsg
    rw [sem_get, sem_get_internal] at hsg
    split_ifs at hsg <;> simp only [SemGetOutcome.blocked.injEq] at hsg
    rw [← hsg.2]
    rfl
  refine ⟨?_, ?_, ?_, ?_, hsem⟩
  · rw [sem_get_result]
    cases hsg : sem_get count now suspended with
    | ret c cnt =>
      show c ≠ .ZK_ERR_TIMEOUT
      rw [sem_get, sem_get_internal] at hsg
      split_ifs at hsg <;> simp only [SemGetOutcome.ret.injEq] at hsg
      all_goals (rw [← hsg.1]; decide)
    | blocked wake ontl =>
      have hontl : ontl = false := hsem wake ontl hsg
      subst hontl
      show event_wait_result
        (run_ticks
          { time := now, wake_up_time := wake,
            event_timeout_wakeup := false, on_timeout_list := false } k) ≠
        .ZK_ERR_TIMEOUT
      rw [event_wait_result_endless]
      decide
  · rw [mutex_lock_result]
    cases hml : mutex_lock owner_hold_count owner_is_current now suspended with
    | ret c =>
      show c ≠ .ZK_ERR_TIMEOUT
      rw [mutex_lock, mutex_lock_internal] at hml
      split_ifs at hml <;> simp only [MutexLockOutcome.ret.injEq] at hml
      all_goals (rw [← hml]; decide)
    | blocked wake ontl =>
      have hontl : ontl = false := by
        rw [mutex_lock, mutex_lock_internal] at hml
        split_ifs at hml <;> simp only [MutexLockOutcome.blocked.injEq] at hml
        rw [← hml.2]
        rfl
      subst hontl
      show event_wait_result
        (run_ticks
          { time := now, wake_up_time := wake,
            event_timeout_wakeup := false, on_timeout_list := false } k) ≠
        .ZK_ERR_TIMEOUT
      rw [event_wait_result_endless]
      decide
  · rw [queue_write_result]
    cases hqw : queue_write_internal q buffer .BLOCK_TYPE_ENDLESS
        ZK_TIMEOUT_INFINITE now suspended with
    | ret c q2 =>
      show c ≠ .ZK_ERR_TIMEOUT
      rw [queue_write_internal] at hqw
      split_ifs at hqw <;> simp only [QueueWriteOutcome.ret.injEq] at hqw
      all_goals (rw [← hqw.1]; decide)
    | blocked wake ontl q2 =>
      have hontl : ontl = false := by
        rw [queue_write_internal] at hqw
        split_ifs at hqw <;> simp only [QueueWriteOutcome.blocked.injEq] at hqw
        rw [← hqw.2.1]
        rfl
      subst hontl
      show event_wait_result
        (run_ticks
          { time := now, wake_up_time := wake,
            event_timeout_wakeup := false, on_timeout_list := false } k) ≠
        .ZK_ERR_TIMEOUT
      rw [event_wait_result_endless]
      decide
  · rw [queue_read_result]
    cases hqr : queue_read_internal q size .BLOCK_TYPE_ENDLESS
        ZK_TIMEOUT_INFINITE now suspended with
    | ret c bytes q2 =>
      show c ≠ .ZK_ERR_TIMEOUT
      rw [queue_read_internal] at hqr
      split_ifs at hqr <;> simp only [QueueReadOutcome.ret.injEq] at hqr
      all_goals (rw [← hqr.1]; decide)
    | blocked wake ontl q2 =>
      have hontl : ontl = false := by
        rw [queue_read_internal] at hqr
        split_ifs at hqr <;> simp only [QueueReadOutcome.blocked.injEq] at hqr
        rw [← hqr.2.1]
        rfl
      subst hontl
      show event_wait_result
        (run_ticks
          { time := now, wake_up_time := wake,
            event_timeout_wakeup := false, on_timeout_list := false } k) ≠
        .ZK_ERR_TIMEOUT
      rw [event_wait_result_endless]
      decide

/-- Claim C8, witness: concrete runs of the four endless variants. -/
theorem C8_endless_never_timeout_witness :
    sem_get_result 0 7 false 5 ≠ .ZK_ERR_TIMEOUT ∧
    mutex_lock_result 1 false 7 false 5 ≠ .ZK_ERR_TIMEOUT ∧
    queue_write_result
        { data_buffer := [0], element_single_size := 1, element_num := 1,
          read_pos := 0, write_pos := 0 } [3] 7 false 5 ≠ .ZK_ERR_TIMEOUT ∧
    queue_read_result
        { data_buffer := [0], element_single_size := 1, element_num := 1,
          read_pos := 0, write_pos := 0 } 1 7 false 5 ≠ .ZK_ERR_TIMEOUT ∧
    (∀ wake ontl, sem_get 0 7 false = .blocked wake ontl → ontl = false) :=
  C8_endless_never_timeout 0 1 1 7 5 false false
    { data_buffer := [0], element_single_size := 1, element_num := 1,
      read_pos := 0, write_pos := 0 } [3]

/-- Claim C10: the claim states every handle at or above QUEUE_MAX_NUM is
rejected before the pool is indexed.  The embedded QUEUE_CHECK_HANDLE_VALID
macro compares with a strict greater-than, so for every pool size the handle
equal to QUEUE_MAX_NUM passes the check (and the caller then indexes
g_queue_pool one past its end); the macro rejects exactly the handles
strictly greater than QUEUE_MAX_NUM. -/
theorem C10_handle_check_off_by_one :
    (∀ queue_max_num : Nat,
      queue_check_handle_valid queue_max_num queue_max_num = none) ∧
    (∀ queue_max_num handle : Nat,
      queue_check_handle_valid queue_max_num handle =
          some .ZK_ERR_INVALID_HANDLE ↔ queue_max_num < handle) := by
  constructor
  · intro m
    simp [queue_check_handle_valid]
  · intro m h
    rw [queue_check_handle_valid]
    split
    · simp_all
    · simp_all

/-- Claim C4: schedule(), invoked while the current task is on its ready
list: (1) while the scheduler is suspended it sets the reschedule-pending
flag and requests no switch; (2) otherwise the selected task comes from the
first non-empty ready list (every higher-urgency list is empty), and if its
priority differs from the current priority a context switch is requested
with it as switch_next; (3) with equal priorities, if the current task is
alone on its ready list no switch is requested, and otherwise the current
task moves to the tail of its ready list, the new head becomes switch_next
and a switch is requested. -/
theorem C4_schedule_spec (s : SchedState) (next : WaitTask)
    (hlen : s.ready.length = 32)
    (hinv : ∀ i < 32, (s.priority_active.testBit i = true ↔ readyD s i ≠ []))
    (hnext : get_highest_priority_task s = some next)
    (hmem : s.current ∈ readyD s s.current.priority) :
    (s.suspended = true →
      schedule s =
        { st := { s with re_schedule_pending := true },
          need_switch := false, switch_next := none }) ∧
    (s.suspended = false →
      (∀ j < zk_cpu_clz_rbit s.priority_active, readyD s j = []) ∧
      readyD s (zk_cpu_clz_rbit s.priority_active) ≠ [] ∧
      (next.priority ≠ s.current.priority →
        schedule s =
          { st := s, need_switch := true, switch_next := some next }) ∧
      (next.priority = s.current.priority →
        (readyD s s.current.priority = [s.current] →
          schedule s =
            { st := s, need_switch := false, switch_next := some next }) ∧
        (readyD s s.current.priority ≠ [s.current] →
          schedule s =
            { st := { s with ready :=
                (s.ready.set s.current.priority
                  ((readyD s s.current.priority).erase s.current ++
                    [s.current])) },
              need_switch := true,
              switch_next :=
                ((readyD s s.current.priority).erase s.current ++
                  [s.current]).head? }))) := by
  have hne : readyD s (zk_cpu_clz_rbit s.priority_active) ≠ [] := by
    intro hempty
    rw [get_highest_priority_task, hempty] at hnext
    simp at hnext
  have hr32 : zk_cpu_clz_rbit s.priority_active ≠ 32 := by
    intro h32
    apply hne
    rw [h32, readyD]
    exact List.getD_eq_default _ _ (by omega)
  obtain ⟨-, hrlt, hmin⟩ := zk_cpu_clz_rbit_spec s.priority_active hr32
  have hlow : ∀ j < zk_cpu_clz_rbit s.priority_active, readyD s j = [] := by
    intro j hj
    have hjbit := hmin j hj
    have hj32 : j < 32 := by omega
    by_contra hne2
    have := (hinv j hj32).mpr hne2
    rw [this] at hjbit
    exact Bool.true_eq_false.mp hjbit
  constructor
  · intro hsus
    rw [schedule, if_pos hsus]
  · intro hsus
    refine ⟨hlow, hne, ?_, ?_⟩
    · intro hpne
      simp [schedule, hsus, hnext, hpne]
    · intro hpeq
      constructor
      · intro hsingle
        simp [schedule, hsus, hnext, hpeq, hsingle]
      · intro hsingle
        simp [schedule, hsus, hnext, hpeq, hsingle]

/-- Claim C4, witness: the demo state rotates its priority-2 ready list. -/
theorem C4_schedule_spec_witness :
    (sched_demo_state.ready.length = 32 ∧
      (∀ i < 32, (sched_demo_state.priority_active.testBit i = true ↔
        readyD sched_demo_state i ≠ [])) ∧
      get_highest_priority_task sched_demo_state =
        some { id := 1, priority := 2 } ∧
      sched_demo_state.current ∈
        readyD sched_demo_state sched_demo_state.current.priority) ∧
    ((sched_demo_state.suspended = true →
      schedule sched_demo_state =
        { st := { sched_demo_state with re_schedule_pending := true },
          need_switch := false, switch_next := none }) ∧
    (sched_demo_state.suspended = false →
      (∀ j < zk_cpu_clz_rbit sched_demo_state.priority_active,
        readyD sched_demo_state j = []) ∧
      readyD sched_demo_state
        (zk_cpu_clz_rbit sched_demo_state.priority_active) ≠ [] ∧
      (WaitTask.priority { id := 1, priority := 2 } ≠
          sched_demo_state.current.priority →
        schedule sched_demo_state =
          { st := sched_demo_state, need_switch := true,
            switch_next := some { id := 1, priority := 2 } }) ∧
      (WaitTask.priority { id := 1, priority := 2 } =
          sched_demo_state.current.priority →
        (readyD sched_demo_state sched_demo_state.current.priority =
            [sched_demo_state.current] →
          schedule sched_demo_state =
            { st := sched_demo_state, need_switch := false,
              switch_next := some { id := 1, priority := 2 } }) ∧
        (readyD sched_demo_state sched_demo_state.current.priority ≠
            [sched_demo_state.current] →
          schedule sched_demo_state =
            { st := { sched_demo_state with
                ready :=
                  (sched_demo_state.ready.set
                    sched_demo_state.current.priority
                    ((readyD sched_demo_state
                        sched_demo_state.current.priority).erase
                      sched_demo_state.current ++
                      [sched_demo_state.current])) },
              need_switch := true,
              switch_next :=
                ((readyD sched_demo_state
                    sched_demo_state.current.priority).erase
                  sched_demo_state.current ++
                  [sched_demo_state.current]).head? })))) :=
  ⟨⟨by decide, by decide, by decide, by decide⟩,
   C4_schedule_spec sched_demo_state { id := 1, priority := 2 }
     (by decide) (by decide) (by decide) (by decide)⟩

/-- Claim C7: for a positive request whose header-extended size does not
overflow, a successful mem_alloc computes the final size by rounding
request + header up to the platform alignment and clamping to the minimum
block of twice the aligned header size; it selects the first block of at
least that size on the address-ordered free list; it splits off the
remainder as a new free block, inserted in address order, exactly when the
remainder is at least the minimum block size, and hands over the whole block
otherwise; the free list stays address-ordered and non-overlapping; the user
pointer is the chosen header address plus the aligned header size. -/
theorem C7_mem_alloc_spec (st : MemState) (request_size : Nat) (blk : MemBlock)
    (hreq : 0 < request_size)
    (hov : request_size + MEM_BLOCK_ALIGNMENT < U32_MOD)
    (havail : mem_alloc_final_size request_size ≤ st.available_size)
    (hfit : st.free_list.find?
      (fun b => decide (mem_alloc_final_size request_size ≤ b.size)) =
      some blk)
    (hwf : st.free_list.Pairwise (fun a b => a.addr + a.size ≤ b.addr)) :
    mem_alloc_final_size request_size =
      max (zk_addr_align ((request_size + MEM_BLOCK_ALIGNMENT) % U32_MOD)
        ZK_BYTE_ALIGNMENT ZK_BYTE_ALIGNMENT_MASK) MEM_BLOCK_MIN_SIZE ∧
    (mem_alloc st request_size).1 = some (blk.addr + MEM_BLOCK_ALIGNMENT) ∧
    (MEM_BLOCK_MIN_SIZE ≤ blk.size - mem_alloc_final_size request_size →
      (mem_alloc st request_size).2.free_list =
        mem_free_list_insert_by_addr
          (st.free_list.eraseP
            (fun b => decide (mem_alloc_final_size request_size ≤ b.size)))
          { addr := blk.addr + mem_alloc_final_size request_size,
            size := blk.size - mem_alloc_final_size request_size }) ∧
    (blk.size - mem_alloc_final_size request_size < MEM_BLOCK_MIN_SIZE →
      (mem_alloc st request_size).2.free_list =
        st.free_list.eraseP
          (fun b => decide (mem_alloc_final_size request_size ≤ b.size))) ∧
    (mem_alloc st request_size).2.free_list.Pairwise
      (fun a b => a.addr + a.size ≤ b.addr) ∧
    (mem_alloc st request_size).2.available_size =
      st.available_size - mem_alloc_final_size request_size := by
  have hsize : mem_alloc_final_size request_size ≤ blk.size := by
    have := List.find?_some hfit
    simpa using this
  obtain ⟨pre, post, hsplit, hpre, herase⟩ :=
    find_eraseP_split st.free_list blk hfit
  have hprelt : ∀ x ∈ pre, ¬ (mem_alloc_final_size request_size ≤ x.size) := by
    intro x hx
    have := hpre x hx
    simpa using this
  have hwalk : mem_alloc_walk st.free_list (mem_alloc_final_size request_size) =
      some (blk, pre ++ post) := by
    rw [hsplit]
    exact mem_alloc_walk_of_split _ pre post blk hprelt hsize
  have hne0 : ¬ (request_size = 0) := by omega
  have hnov : ¬ (U32_MOD ≤ request_size + MEM_BLOCK_ALIGNMENT) := by omega
  have hav : ¬ (st.available_size < mem_alloc_final_size request_size) := by
    omega
  have hred : mem_alloc st request_size =
      (if MEM_BLOCK_MIN_SIZE ≤ blk.size - mem_alloc_final_size request_size then
        (some (blk.addr + MEM_BLOCK_ALIGNMENT),
         { free_list := mem_free_list_insert_by_addr (pre ++ post)
             { addr := blk.addr + mem_alloc_final_size request_size,
               size := blk.size - mem_alloc_final_size request_size },
           available_size :=
             st.available_size - mem_alloc_final_size request_size })
      else
        (some (blk.addr + MEM_BLOCK_ALIGNMENT),
         { free_list := pre ++ post,
           available_size :=
             st.available_size - mem_alloc_final_size request_size })) := by
    rw [mem_alloc, if_neg hne0, if_neg hnov]
    simp only [hav, if_false, hwalk]
  have hsub : (pre ++ post).Sublist st.free_list := by
    rw [hsplit]
    exact (List.sublist_cons_self blk post).append_left pre
  refine ⟨?_, ?_, ?_, ?_, ?_, ?_⟩
  · simp only [mem_alloc_final_size]
    rcases Nat.lt_or_ge (zk_addr_align
        ((request_size + MEM_BLOCK_ALIGNMENT) % U32_MOD)
        ZK_BYTE_ALIGNMENT ZK_BYTE_ALIGNMENT_MASK) MEM_BLOCK_MIN_SIZE with h | h
    · rw [if_pos h]
      exact (Nat.max_eq_right (Nat.le_of_lt h)).symm
    · rw [if_neg (Nat.not_lt.mpr h)]
      exact (Nat.max_eq_left h).symm
  · rw [hred]
    split_ifs <;> rfl
  · intro h
    rw [hred, if_pos h, herase]
  · intro h
    rw [hred, if_neg (Nat.not_le.mpr h), herase]
  · rw [hred]
    split_ifs with hcase
    · apply mem_free_list_insert_by_addr_pairwise
      · exact hwf.sublist hsub
      · rw [hsplit, List.pairwise_append] at hwf
        obtain ⟨hpw1, hpw2, hcross⟩ := hwf
        rw [List.pairwise_cons] at hpw2
        intro x hx
        have hmin32 : MEM_BLOCK_MIN_SIZE = 32 := by decide
        rcases List.mem_append.mp hx with hx1 | hx2
        · left
          have := hcross x hx1 blk (List.mem_cons_self blk post)
          dsimp only
          constructor <;> omega
        · right
          have hbx := hpw2.1 x hx2
          dsimp only
          constructor <;> omega
    · exact hwf.sublist hsub
  · rw [hred]
    split_ifs <;> rfl

/-- Claim C7, witness: request of 1 byte against the fresh 10 KiB heap, which
is split. -/
theorem C7_mem_alloc_spec_witness :
    (0 < 1 ∧ 1 + MEM_BLOCK_ALIGNMENT < U32_MOD ∧
      mem_alloc_final_size 1 ≤ mem_demo_state.available_size ∧
      mem_demo_state.free_list.find?
        (fun b => decide (mem_alloc_final_size 1 ≤ b.size)) =
        some { addr := 0, size := 10240 } ∧
      mem_demo_state.free_list.Pairwise
        (fun a b => a.addr + a.size ≤ b.addr)) ∧
    (mem_alloc_final_size 1 =
      max (zk_addr_align ((1 + MEM_BLOCK_ALIGNMENT) % U32_MOD)
        ZK_BYTE_ALIGNMENT ZK_BYTE_ALIGNMENT_MASK) MEM_BLOCK_MIN_SIZE ∧
    (mem_alloc mem_demo_state 1).1 =
      some (MemBlock.addr { addr := 0, size := 10240 } + MEM_BLOCK_ALIGNMENT) ∧
    (MEM_BLOCK_MIN_SIZE ≤
        MemBlock.size { addr := 0, size := 10240 } - mem_alloc_final_size 1 →
      (mem_alloc mem_demo_state 1).2.free_list =
        mem_free_list_insert_by_addr
          (mem_demo_state.free_list.eraseP
            (fun b => decide (mem_alloc_final_size 1 ≤ b.size)))
          { addr := MemBlock.addr { addr := 0, size := 10240 } +
              mem_alloc_final_size 1,
            size := MemBlock.size { addr := 0, size := 10240 } -
              mem_alloc_final_size 1 }) ∧
    (MemBlock.size { addr := 0, size := 10240 } - mem_alloc_final_size 1 <
        MEM_BLOCK_MIN_SIZE →
      (mem_alloc mem_demo_state 1).2.free_list =
        mem_demo_state.free_list.eraseP
          (fun b => decide (mem_alloc_final_size 1 ≤ b.size))) ∧
    (mem_alloc mem_demo_state 1).2.free_list.Pairwise
      (fun a b => a.addr + a.size ≤ b.addr) ∧
    (mem_alloc mem_demo_state 1).2.available_size =
      mem_demo_state.available_size - mem_alloc_final_size 1) :=
  ⟨⟨by decide, by decide, by decide, by decide, by decide⟩,
   C7_mem_alloc_spec mem_demo_state 1 { addr := 0, size := 10240 }
     (by decide) (by decide) (by decide) (by decide) (by decide)⟩

/-- Claim C9: queue_create computes the data-buffer allocation size as the
32-bit wrapping product element_num * element_single_size; for every input
pair whose true product is at least 2^32 but whose product modulo 2^32 is
non-zero and allocatable, the call succeeds while the allocated buffer is
strictly smaller than element_num * element_single_size bytes, though the
created queue still records the full element count and element size. -/
theorem C9_queue_create_overflow (st : MemState) (S N : Nat)
    (hover : U32_MOD ≤ N * S)
    (hnz : (N * S) % U32_MOD ≠ 0)
    (halloc : (mem_alloc st ((N * S) % U32_MOD)).1.isSome = true) :
    (queue_create st S N true).code = .ZK_SUCCESS ∧
    ((queue_create st S N true).queue.map (fun q => q.data_buffer.length)) =
      some ((N * S) % U32_MOD) ∧
    (N * S) % U32_MOD < N * S ∧
    ((queue_create st S N true).queue.map queue_t.element_num) = some N ∧
    ((queue_create st S N true).queue.map queue_t.element_single_size) =
      some S := by
  have hU : U32_MOD = 4294967296 := rfl
  have hS0 : ¬ (S = 0) := by
    intro h
    rw [h, Nat.mul_zero] at hover
    omega
  have hN0 : ¬ (N = 0) := by
    intro h
    rw [h, Nat.zero_mul] at hover
    omega
  have hmod : (N * S) % U32_MOD < N * S := by
    have := Nat.mod_lt (N * S) (by omega : 0 < U32_MOD)
    omega
  rcases hma : mem_alloc st ((N * S) % U32_MOD) with ⟨o, st2⟩
  rw [hma] at halloc
  cases o with
  | none => simp at halloc
  | some p =>
    have hqc : queue_create st S N true =
        { code := .ZK_SUCCESS,
          queue := some (queue_after_create S N
            (List.replicate ((N * S) % U32_MOD) 0)),
          mem := st2 } := by
      rw [queue_create, if_neg (by simp [hS0, hN0])]
      simp only [hma]
      rw [if_pos trivial]
    rw [hqc]
    refine ⟨rfl, ?_, hmod, rfl, rfl⟩
    simp [queue_after_create]

/-- Claim C9, witness: element size 2^30 + 1 and element count 4 multiply to
2^32 + 4, so only 4 bytes are allocated from the fresh heap. -/
theorem C9_queue_create_overflow_witness :
    (U32_MOD ≤ 4 * 1073741825 ∧ (4 * 1073741825) % U32_MOD ≠ 0 ∧
      (mem_alloc mem_demo_state ((4 * 1073741825) % U32_MOD)).1.isSome =
        true) ∧
    ((queue_create mem_demo_state 1073741825 4 true).code = .ZK_SUCCESS ∧
      ((queue_create mem_demo_state 1073741825 4 true).queue.map
        (fun q => q.data_buffer.length)) = some ((4 * 1073741825) % U32_MOD) ∧
      (4 * 1073741825) % U32_MOD < 4 * 1073741825 ∧
      ((queue_create mem_demo_state 1073741825 4 true).queue.map
        queue_t.element_num) = some 4 ∧
      ((queue_create mem_demo_state 1073741825 4 true).queue.map
        queue_t.element_single_size) = some 1073741825) :=
  ⟨⟨by decide, by decide, by decide⟩,
   C9_queue_create_overflow mem_demo_state 1073741825 4
     (by decide) (by decide) (by decide)⟩

end ZkRTOS
